import Mathlib

/-!
Shallow embedding of the heuristic formatting/scoring core of the
agentic-content-repurposer repository (src/tools.py, src/main.py,
src/agents.py), together with theorems checking the repository's
natural-language specification against that code.

Modelling conventions:
* Python strings are `List Char` (`Str` below); Python floats are `ℚ`
  (every literal in the scored code is an exact decimal, so rational
  arithmetic models the computation exactly except for `round`, which is
  modelled as round-half-to-even on the exact rational value).
* Python whitespace (`\s`, `str.split()`, `str.strip()`) is modelled over
  the ASCII whitespace characters, which are the only ones the pipeline
  produces.
* Fallible or effectful surroundings (the OpenAI call, the CSV writer)
  are out of scope; only the pure string they hand to the core
  (for example the retry-exhaustion fallback string) is modelled.
-/

namespace ContentRepurposer

/- Batteries marks the arithmetic on `Rat` `@[irreducible]`, which stops
`decide` from evaluating concrete score computations; restore the
default reducibility for this development. -/
attribute [local semireducible] Rat.mul Rat.inv Rat.add Rat.sub Rat.ofScientific

/-- Python strings, modelled as lists of characters. -/
abbrev Str := List Char

/-- Coerce a Lean string literal to the `Str` representation. -/
def str (s : String) : Str := s.data

/-- The ASCII whitespace characters matched by Python's `\s`, `str.strip()`
and `str.split()` (space, tab, newline, carriage return, vertical tab,
form feed). -/
def isPyWs (c : Char) : Bool :=
  c = ' ' ∨ c = '\t' ∨ c = '\n' ∨ c = '\r' ∨ c = '\x0b' ∨ c = '\x0c'

/-- Python `str.strip()`: drop leading and trailing whitespace. -/
def pyStrip (l : Str) : Str :=
  ((l.dropWhile isPyWs).reverse.dropWhile isPyWs).reverse

/-- Helper for `pySplit`; `acc` is the (possibly empty) word currently
being accumulated. -/
def pySplitAux : Str → Str → List Str
  | [], acc => if acc = [] then [] else [acc]
  | c :: r, acc =>
    if isPyWs c then
      if acc = [] then pySplitAux r [] else acc :: pySplitAux r []
    else
      pySplitAux r (acc ++ [c])

/-- Python `str.split()` with no separator argument: split on runs of
whitespace, never producing empty words. -/
def pySplit (l : Str) : List Str := pySplitAux l []

/-- Python `sep.join(ws)`. -/
def joinSep (sep : Str) : List Str → Str
  | [] => []
  | [w] => w
  | w :: ws => w ++ sep ++ joinSep sep ws

/-- `_normalize_whitespace` (tools.py lines 23-27):
`re.sub(r"\s+", " ", text).strip()` collapses every whitespace run to a
single space and trims the ends, which is exactly
`" ".join(text.split())`. -/
def normalizeWs (l : Str) : Str := joinSep (str " ") (pySplit l)

/-- Python `str.lower()` (ASCII; the pipeline's platform identifiers and
hashtags are ASCII). -/
def toLowerStr (l : Str) : Str := l.map Char.toLower

/-- The line-break characters recognised by Python `str.splitlines()`
(other than the two-character break `"\r\n"`, handled separately). -/
def isLB (c : Char) : Bool :=
  c = '\n' ∨ c = '\r' ∨ c = '\x0b' ∨ c = '\x0c' ∨ c = '\x1c' ∨
  c = '\x1d' ∨ c = '\x1e' ∨ c = '\x85' ∨ c = '\u2028' ∨ c = '\u2029'

/-- Helper for `pySplitlines`; `acc` is the current line being
accumulated and `afterCR` records whether the previous character was a
carriage return (so that `"\r\n"` counts as a single break).  A line is
emitted at every break; at end of input the accumulator is emitted only
when nonempty. -/
def splitlinesAux : Str → Str → Bool → List Str
  | [], acc, _ => if acc = [] then [] else [acc]
  | c :: r, acc, afterCR =>
    if c = '\n' ∧ afterCR = true then splitlinesAux r acc false
    else if isLB c then acc :: splitlinesAux r [] (decide (c = '\r'))
    else splitlinesAux r (acc ++ [c]) false

/-- Python `str.splitlines()`. -/
def pySplitlines (l : Str) : List Str := splitlinesAux l [] false

/-- Decimal digits of a `Nat`, as produced by Python's string
interpolation of an `int`. -/
def natStr (n : Nat) : Str := (Nat.repr n).data

/-- One entry of `PLATFORM_CONFIG` (tools.py lines 7-20); a field is
`none` when the corresponding key is not in the platform's dict. -/
structure PlatformCfg where
  min_words : Option Nat := none
  max_words : Option Nat := none
  max_chars : Option Nat := none
  max_lines : Option Nat := none
deriving DecidableEq

/-- `PLATFORM_CONFIG["linkedin"]` (tools.py lines 8-11). -/
def linkedinCfg : PlatformCfg := { min_words := some 80, max_words := some 220 }

/-- `PLATFORM_CONFIG["instagram"]` (tools.py lines 12-15). -/
def instagramCfg : PlatformCfg := { max_chars := some 2200, max_lines := some 10 }

/-- `PLATFORM_CONFIG["email"]` (tools.py lines 16-19). -/
def emailCfg : PlatformCfg := { min_words := some 40, max_words := some 160 }

/-- Lookup in the `PLATFORM_CONFIG` dict; `none` models a missing key. -/
def PLATFORM_CONFIG (p : Str) : Option PlatformCfg :=
  if p = str "linkedin" then some linkedinCfg
  else if p = str "instagram" then some instagramCfg
  else if p = str "email" then some emailCfg
  else none

/-- The dict returned by `platform_formatting_tool`; optional fields are
`none` on the branches whose dict does not carry the key. -/
structure FormatResult where
  platform : Str
  formatted_text : Str
  caption : Option Str := none
  hashtag_block : Option Str := none
  length_warning : Option (Option Str) := none
  warning : Option Str := none
deriving DecidableEq

/-- Hashtag cleaning loop (tools.py lines 171-178): trim each tag, drop
empties, prepend `#` when missing. -/
def cleanTags : List Str → List Str
  | [] => []
  | tag :: rest =>
    let t := pyStrip tag
    if t = [] then cleanTags rest
    else (if t.head? = some '#' then t else '#' :: t) :: cleanTags rest

/-- Case-insensitive order-preserving deduplication (tools.py lines
181-186); `seen` is the set of lowercased tags already kept. -/
def dedupTags (seen : List Str) : List Str → List Str
  | [] => []
  | t :: rest =>
    if toLowerStr t ∈ seen then dedupTags seen rest
    else t :: dedupTags (toLowerStr t :: seen) rest

/-- The Instagram caption computation (tools.py lines 158-167): strip,
drop lines beyond `max_lines`, then truncate to `max_chars` raw
characters. -/
def instaCaption (t : Str) : Str :=
  let cfg := instagramCfg
  let caption0 := pyStrip t
  let lines := pySplitlines caption0
  let caption1 :=
    if lines.length > cfg.max_lines.getD 0 then
      joinSep (str "\n") (lines.take (cfg.max_lines.getD 0))
    else caption0
  if caption1.length > cfg.max_chars.getD 0 then
    caption1.take (cfg.max_chars.getD 0)
  else caption1

/-- The Instagram hashtag block (tools.py lines 170-188): cleaned,
deduplicated tags joined by single spaces. -/
def instaBlock (hashtags : List Str) : Str :=
  joinSep (str " ") (dedupTags [] (cleanTags hashtags))

/-- `platform_formatting_tool` (tools.py lines 98-227).  The Python
parameter default `hashtags=None` followed by `hashtags or []` is
modelled by passing the list directly (both `None` and `[]` become
`[]`). -/
def platform_formatting_tool (platform0 text0 : Str) (hashtags : List Str) :
    FormatResult :=
  let platform := toLowerStr platform0
  let raw_text := text0
  if PLATFORM_CONFIG platform = none then
    { platform := platform
      formatted_text := normalizeWs raw_text
      warning := some (str "Unknown platform; no specific formatting applied.") }
  else if pyStrip raw_text = [] then
    { platform := platform
      formatted_text := str "[EMPTY CONTENT] No text was provided to format."
      warning := some (str "Input text was empty.") }
  else if platform = str "linkedin" then
    let formatted := normalizeWs (pyStrip raw_text)
    let words := pySplit formatted
    let cfg := linkedinCfg
    let min_w := cfg.min_words.getD 0
    let max_w := cfg.max_words.getD 0
    if words.length > max_w then
      { platform := str "linkedin"
        formatted_text := joinSep (str " ") (words.take max_w)
        length_warning := some (some
          (str "Trimmed LinkedIn post to " ++ natStr max_w ++ str " words.")) }
    else if words.length < min_w then
      { platform := str "linkedin"
        formatted_text := formatted
        length_warning := some (some
          (str "LinkedIn post is quite short (" ++ natStr words.length ++
            str " words).")) }
    else
      { platform := str "linkedin"
        formatted_text := formatted
        length_warning := some none }
  else if platform = str "instagram" then
    let caption := instaCaption raw_text
    let hashtag_block := instaBlock hashtags
    let full_text :=
      if hashtag_block = [] then caption
      else caption ++ str "\n\n" ++ hashtag_block
    { platform := str "instagram"
      formatted_text := full_text
      caption := some caption
      hashtag_block := some hashtag_block }
  else if platform = str "email" then
    let formatted := normalizeWs (pyStrip raw_text)
    let words := pySplit formatted
    let cfg := emailCfg
    let min_w := cfg.min_words.getD 0
    let max_w := cfg.max_words.getD 0
    if words.length > max_w then
      { platform := str "email"
        formatted_text := joinSep (str " ") (words.take max_w)
        length_warning := some (some
          (str "Trimmed email blurb to " ++ natStr max_w ++ str " words.")) }
    else if words.length < min_w then
      { platform := str "email"
        formatted_text := formatted
        length_warning := some (some
          (str "Email blurb is quite short (" ++ natStr words.length ++
            str " words).")) }
    else
      { platform := str "email"
        formatted_text := formatted
        length_warning := some none }
  else
    { platform := platform
      formatted_text := normalizeWs raw_text
      warning := some (str "Reached fallback branch of formatter.") }

/-- The dict returned by `quality_and_reach_scorer` (tools.py lines
232-372); `dimensions` keeps the entry order of the Python dict literal,
with `none` values modelling Python `None`. -/
structure ScoreResult where
  platform : Str
  score : ℚ
  dimensions : List (Str × Option ℚ)
  summary_feedback : Str
deriving DecidableEq

/-- The literal fallback marker searched for by the clarity heuristic
(tools.py line 275). -/
def FALLBACK_MARKER : Str := str "[FALLBACK]"

/-- Clarity heuristic (tools.py lines 274-278): 0.3 when the text
contains the fallback marker, else 0.6 when the normalized word count is
below 15, else 0.8. -/
def clarityScore (text : Str) (word_count : Nat) : ℚ :=
  if FALLBACK_MARKER <:+: text then 0.3
  else if word_count < 15 then 0.6
  else 0.8

/-- Length-appropriateness heuristic (tools.py lines 285-303). -/
def lengthScore (platform : Str) (word_count : Nat) : ℚ :=
  if platform = str "linkedin" ∨ platform = str "email" then
    let cfg := (PLATFORM_CONFIG platform).getD {}
    let min_w := cfg.min_words.getD 0
    let max_w := cfg.max_words.getD 1000000000
    if word_count < min_w then 0.5
    else if word_count > max_w then 0.6
    else 0.9
  else if platform = str "instagram" then
    if word_count < 10 then 0.5
    else if word_count > 120 then 0.6
    else 0.9
  else 0.8

/-- Helper for `firstSentence`: scan until the first whitespace character
that is immediately preceded by `.`, `!` or `?`; `prev` is the previous
character. -/
def firstSentAux : Str → Option Char → Str
  | [], _ => []
  | c :: r, prev =>
    if isPyWs c ∧ (prev = some '.' ∨ prev = some '!' ∨ prev = some '?') then []
    else c :: firstSentAux r (some c)

/-- First element of `re.split(r"(?<=[.!?])\s+", text.strip())`
(tools.py lines 307-308): the opening sentence of the text.  `re.split`
always returns at least one element, so the guarded `sentences[0]` is
exactly this first segment. -/
def firstSentence (t : Str) : Str := firstSentAux (pyStrip t) none

/-- The emoji list of tools.py line 312.  The source file is
double-encoded, so the Python strings are the literal four- resp.
three-character mojibake sequences spelled here. -/
def EMOJI_LIST : List Str :=
  [str "ðŸ”¥", str "âœ¨",
   str "ðŸ’ª", str "ðŸš€"]

/-- Fixed phrases that strengthen the hook when the opening starts with
one of them (tools.py line 314). -/
def HOOK_STARTS : List Str := [str "imagine", str "what if", str "ever felt"]

/-- Hook-strength heuristic (tools.py lines 306-315): baseline 0.7,
raised by a question mark, an emoji, or a strong opening phrase, the
raises composing through `max`. -/
def hookScore (opening : Str) : ℚ :=
  let h1 : ℚ := if '?' ∈ opening then 0.85 else 0.7
  let h2 : ℚ := if EMOJI_LIST.any (fun e => decide (e <:+: opening)) then
      max h1 0.8 else h1
  if HOOK_STARTS.any (fun p => p.isPrefixOf (toLowerStr opening)) then
    max h2 0.85
  else h2

/-- Call-to-action phrase list (tools.py lines 318-321). -/
def CTA_PHRASES : List Str :=
  [str "share", str "comment", str "tell me", str "let me know",
   str "join", str "reply", str "dm me", str "reach out", str "connect"]

/-- CTA heuristic (tools.py lines 322-325): 0.9 when the lowercased text
contains any CTA phrase, else 0.6. -/
def ctaScore (text : Str) : ℚ :=
  if CTA_PHRASES.any (fun p => decide (p <:+: toLowerStr text)) then 0.9
  else 0.6

/-- Python `\w` (word character) over the ASCII range. -/
def isWordChar (c : Char) : Bool :=
  ('a' ≤ c ∧ c ≤ 'z') ∨ ('A' ≤ c ∧ c ≤ 'Z') ∨ ('0' ≤ c ∧ c ≤ '9') ∨ c = '_'

/-- Fuel-indexed scan counting `re.findall(r"#\w+", text)` matches: a
`#` followed by at least one word character starts a match that consumes
the whole word-character run.  The fuel (initially the length of the
text) keeps the recursion structural; each step consumes at least one
character, so the fuel never runs out. -/
def countTagsF : Nat → Str → Nat
  | 0, _ => 0
  | _ + 1, [] => 0
  | f + 1, '#' :: rest =>
    if rest.takeWhile isWordChar = [] then countTagsF f rest
    else 1 + countTagsF f (rest.dropWhile isWordChar)
  | f + 1, _ :: rest => countTagsF f rest

/-- Number of `#\w+` matches in the text (tools.py line 330). -/
def countTags (l : Str) : Nat := countTagsF l.length l

/-- Hashtag-richness heuristic for Instagram (tools.py lines 329-336). -/
def hashtagScore (text : Str) : ℚ :=
  let n := countTags text
  if n = 0 then 0.4
  else if 3 ≤ n ∧ n ≤ 15 then 0.9
  else 0.7

/-- Normalized word count used by the scorer (tools.py lines 268-270). -/
def scorerWordCount (text : Str) : Nat := (pySplit (normalizeWs text)).length

/-- The `dimensions` dict literal of the scorer (tools.py lines 338-345),
for already-lowercased platform and already-stripped nonempty text. -/
def scorerDims (platform text : Str) : List (Str × Option ℚ) :=
  let word_count := scorerWordCount text
  [(str "clarity", some (clarityScore text word_count)),
   (str "tone_match", some 0.8),
   (str "length_appropriateness", some (lengthScore platform word_count)),
   (str "hook_strength", some (hookScore (firstSentence text))),
   (str "cta_quality", some (ctaScore text)),
   (str "hashtag_richness",
     if platform = str "instagram" then some (hashtagScore text) else none)]

/-- The summary feedback (tools.py lines 352-365): one advisory sentence
per triggered condition, in fixed order, joined by single spaces; a fixed
positive sentence when nothing triggers. -/
def scorerFeedback (platform text : Str) : Str :=
  let word_count := scorerWordCount text
  let parts : List Str :=
    (if lengthScore platform word_count < 0.7 then
      [str "Adjust the length to better fit this platform."] else []) ++
    (if hookScore (firstSentence text) < 0.75 then
      [str "Consider a stronger opening line or hook."] else []) ++
    (if ctaScore text < 0.75 then
      [str "Add a clearer call-to-action."] else []) ++
    (if platform = str "instagram" ∧ hashtagScore text < 0.7 then
      [str "Add more relevant hashtags to increase reach."] else [])
  if parts = [] then
    str "Overall, this content is well-structured for the platform."
  else joinSep (str " ") parts

/-- Python `round(q, 2)` modelled on the exact rational value:
round-half-to-even at two decimal places.  (CPython rounds the nearest
binary double; on the exact decimal quantities arising here the two
agree away from representation-dependent ties.) -/
def pyRound2 (q : ℚ) : ℚ :=
  let n : ℤ := ⌊q * 100⌋
  let f : ℚ := q * 100 - n
  let r : ℤ :=
    if f < 1/2 then n
    else if 1/2 < f then n + 1
    else if Even n then n else n + 1
  (r : ℚ) / 100

/-- The non-degenerate branch of the scorer (tools.py lines 267-372):
dimensions, the mean of the non-`None` dimension values, rounding, and
feedback. -/
def scorerBody (platform text : Str) : ScoreResult :=
  let dims := scorerDims platform text
  let numeric_values := dims.filterMap Prod.snd
  let final_score : ℚ :=
    if numeric_values = [] then 0
    else numeric_values.sum / (numeric_values.length : ℚ)
  { platform := platform
    score := pyRound2 final_score
    dimensions := dims
    summary_feedback := scorerFeedback platform text }

/-- `quality_and_reach_scorer` (tools.py lines 232-372).  The unused
`strategy` parameter is omitted: it is never consulted. -/
def quality_and_reach_scorer (platform0 text0 : Str) : ScoreResult :=
  let platform := toLowerStr platform0
  let text := pyStrip text0
  if text = [] then
    { platform := platform
      score := 0
      dimensions := []
      summary_feedback := str "No text to evaluate." }
  else scorerBody platform text

/-- `REFINEMENT_THRESHOLD` (main.py line 24). -/
def REFINEMENT_THRESHOLD : ℚ := 0.90

/-- The skip condition of `maybe_refine` (main.py line 331):
`base_score is None or base_score >= REFINEMENT_THRESHOLD`. -/
def skipRefinement : Option ℚ → Bool
  | none => true
  | some s => decide (s ≥ REFINEMENT_THRESHOLD)

/-- `maybe_refine` requests a rewrite exactly when its skip condition is
false (main.py lines 327-334). -/
def needsRefinement (base_score : Option ℚ) : Bool := !skipRefinement base_score

/-- The retry-exhaustion fallback string built by `run_agent`
(agents.py line 67); `e` is the string rendering of the last error. -/
def fallbackOutput (e : Str) : Str :=
  str "[FALLBACK OUTPUT] Unable to generate content due to: " ++ e

/-! ### Lemmas: whitespace splitting and joining -/

/-- A word produced by whitespace splitting: nonempty and free of
whitespace characters. -/
def GoodWord (w : Str) : Prop := w ≠ [] ∧ ∀ c ∈ w, isPyWs c = false

theorem takeWhile_append_of (p : Char → Bool) {a : Str} (b : Str)
    (h : ∀ c ∈ a, p c = true) :
    (a ++ b).takeWhile p = a ++ b.takeWhile p := by
  induction a with
  | nil => simp
  | cons c r ih =>
    have hc : p c = true := h c (by simp)
    simp only [List.cons_append, List.takeWhile_cons, hc, if_pos]
    rw [ih (fun d hd => h d (by simp [hd]))]

theorem dropWhile_append_of (p : Char → Bool) {a : Str} (b : Str)
    (h : ∀ c ∈ a, p c = true) :
    (a ++ b).dropWhile p = b.dropWhile p := by
  induction a with
  | nil => simp
  | cons c r ih =>
    have hc : p c = true := h c (by simp)
    simp only [List.cons_append, List.dropWhile_cons, hc, if_pos]
    exact ih (fun d hd => h d (by simp [hd]))

theorem pySplitAux_good (l : Str) : ∀ (acc : Str),
    (∀ c ∈ acc, isPyWs c = false) → ∀ w ∈ pySplitAux l acc, GoodWord w := by
  induction l with
  | nil =>
    intro acc hacc w hw
    by_cases h : acc = []
    · simp [pySplitAux, h] at hw
    · simp [pySplitAux, h] at hw
      exact hw ▸ ⟨h, hacc⟩
  | cons c r ih =>
    intro acc hacc w hw
    by_cases hc : isPyWs c
    · by_cases h : acc = []
      · simp only [pySplitAux, hc, if_pos, h, if_true, reduceIte] at hw
        exact ih [] (by simp) w hw
      · simp only [pySplitAux, hc, if_pos, h, if_false, reduceIte,
          List.mem_cons] at hw
        rcases hw with rfl | hw
        · exact ⟨h, hacc⟩
        · exact ih [] (by simp) w hw
    · simp only [pySplitAux, hc, Bool.false_eq_true, if_false, reduceIte] at hw
      refine ih (acc ++ [c]) ?_ w hw
      intro d hd
      rcases List.mem_append.mp hd with hd | hd
      · exact hacc d hd
      · simp only [List.mem_singleton] at hd
        subst hd
        exact Bool.not_eq_true _ ▸ hc

theorem pySplit_good (l : Str) : ∀ w ∈ pySplit l, GoodWord w :=
  pySplitAux_good l [] (by simp)

theorem pySplitAux_word {w : Str} (hw : ∀ c ∈ w, isPyWs c = false) :
    ∀ acc, acc ++ w ≠ [] → ∀ t,
      pySplitAux (w ++ ' ' :: t) acc = (acc ++ w) :: pySplitAux t [] := by
  induction w with
  | nil =>
    intro acc hne t
    have hacc : acc ≠ [] := by simpa using hne
    simp [pySplitAux, hacc, isPyWs]
  | cons c w' ih =>
    intro acc hne t
    have hc : isPyWs c = false := hw c (by simp)
    simp only [List.cons_append, pySplitAux, hc, Bool.false_eq_true, if_false,
      reduceIte, List.append_eq]
    rw [ih (fun d hd => hw d (by simp [hd])) (acc ++ [c]) (by simp)]
    simp

theorem pySplitAux_last {w : Str} (hw : ∀ c ∈ w, isPyWs c = false) :
    ∀ acc, acc ++ w ≠ [] → pySplitAux w acc = [acc ++ w] := by
  induction w with
  | nil =>
    intro acc hne
    have hacc : acc ≠ [] := by simpa using hne
    simp [pySplitAux, hacc]
  | cons c w' ih =>
    intro acc hne
    have hc : isPyWs c = false := hw c (by simp)
    simp only [pySplitAux, hc, Bool.false_eq_true, if_false, reduceIte]
    rw [ih (fun d hd => hw d (by simp [hd])) (acc ++ [c]) (by simp)]
    simp

/-- Splitting is a left inverse of joining good words with single
spaces. -/
theorem pySplit_joinSep (ws : List Str) (h : ∀ w ∈ ws, GoodWord w) :
    pySplit (joinSep (str " ") ws) = ws := by
  induction ws with
  | nil => rfl
  | cons w ws ih =>
    obtain ⟨hne, hgood⟩ := h w (by simp)
    cases ws with
    | nil =>
      show pySplitAux w [] = [w]
      simpa using pySplitAux_last hgood [] (by simpa)
    | cons w2 ws2 =>
      have hjoin : joinSep (str " ") (w :: w2 :: ws2) =
          w ++ ' ' :: joinSep (str " ") (w2 :: ws2) := by
        show w ++ str " " ++ _ = _
        simp [str]
      show pySplitAux (joinSep (str " ") (w :: w2 :: ws2)) [] = w :: w2 :: ws2
      rw [hjoin, pySplitAux_word hgood [] (by simpa)]
      simpa using ih (fun x hx => h x (by simp [hx]))

/-- Normalizing does not change the word list. -/
theorem pySplit_normalizeWs (l : Str) : pySplit (normalizeWs l) = pySplit l :=
  pySplit_joinSep (pySplit l) (pySplit_good l)

/-- Splitting after truncating to the first `k` words recovers exactly
those words. -/
theorem pySplit_joinSep_take (l : Str) (k : Nat) :
    pySplit (joinSep (str " ") ((pySplit l).take k)) = (pySplit l).take k :=
  pySplit_joinSep _ (fun w hw => pySplit_good l w (List.take_subset k _ hw))

/-! ### Lemmas: line splitting and joining -/

theorem splitlinesAux_length_pos (l : Str) : ∀ (acc : Str) (b : Bool),
    acc ≠ [] → 1 ≤ (splitlinesAux l acc b).length := by
  induction l with
  | nil =>
    intro acc b hacc
    simp [splitlinesAux, hacc]
  | cons c r ih =>
    intro acc b hacc
    simp only [splitlinesAux]
    split_ifs with h1 h2
    · exact ih acc false hacc
    · simp
    · exact ih (acc ++ [c]) false (by simp)

/-- Every line emitted by the splitter is free of line-break characters,
provided the accumulator is. -/
theorem splitlinesAux_good (l : Str) : ∀ (acc : Str) (b : Bool),
    (∀ c ∈ acc, isLB c = false) →
    ∀ w ∈ splitlinesAux l acc b, ∀ c ∈ w, isLB c = false := by
  induction l with
  | nil =>
    intro acc b hacc w hw
    by_cases h : acc = []
    · simp [splitlinesAux, h] at hw
    · simp [splitlinesAux, h] at hw
      exact hw ▸ hacc
  | cons c r ih =>
    intro acc b hacc w hw
    simp only [splitlinesAux] at hw
    split_ifs at hw with h1 h2
    · exact ih acc false hacc w hw
    · rcases List.mem_cons.mp hw with rfl | hw
      · exact hacc
      · exact ih [] _ (by simp) w hw
    · refine ih (acc ++ [c]) false ?_ w hw
      intro d hd
      rcases List.mem_append.mp hd with hd | hd
      · exact hacc d hd
      · simp only [List.mem_singleton] at hd
        subst hd
        exact Bool.not_eq_true _ ▸ h2

/-- Consuming one break-free line followed by a newline. -/
theorem splitlinesAux_word {x : Str} (hx : ∀ c ∈ x, isLB c = false) :
    ∀ acc t, splitlinesAux (x ++ '\n' :: t) acc false =
      (acc ++ x) :: splitlinesAux t [] false := by
  induction x with
  | nil =>
    intro acc t
    have hfl : decide ('\n' = '\r') = false := by decide
    simp only [List.nil_append, splitlinesAux, List.append_nil]
    rw [if_neg (by simp), if_pos (by decide), hfl]
  | cons c x' ih =>
    intro acc t
    have hc : isLB c = false := hx c (by simp)
    simp only [List.cons_append, splitlinesAux, List.append_eq]
    rw [if_neg (by simp), if_neg (by simp [hc])]
    rw [ih (fun d hd => hx d (by simp [hd])) (acc ++ [c]) t]
    simp

/-- Splitting a single break-free string. -/
theorem splitlinesAux_all {x : Str} (hx : ∀ c ∈ x, isLB c = false) :
    ∀ acc, splitlinesAux x acc false =
      if acc ++ x = [] then [] else [acc ++ x] := by
  induction x with
  | nil =>
    intro acc
    simp [splitlinesAux]
  | cons c x' ih =>
    intro acc
    have hc : isLB c = false := hx c (by simp)
    simp only [splitlinesAux]
    rw [if_neg (by simp), if_neg (by simp [hc])]
    rw [ih (fun d hd => hx d (by simp [hd])) (acc ++ [c])]
    simp

/-- Joining break-free lines with newlines and re-splitting yields at
most as many lines (exactly as many unless the last line is empty). -/
theorem pySplitlines_joinSep_le (ws : List Str)
    (h : ∀ w ∈ ws, ∀ c ∈ w, isLB c = false) :
    (pySplitlines (joinSep (str "\n") ws)).length ≤ ws.length := by
  induction ws with
  | nil => simp [pySplitlines, joinSep, splitlinesAux]
  | cons w ws ih =>
    cases ws with
    | nil =>
      show (splitlinesAux w [] false).length ≤ 1
      rw [splitlinesAux_all (h w (by simp)) []]
      split_ifs <;> simp
    | cons w2 ws2 =>
      have hjoin : joinSep (str "\n") (w :: w2 :: ws2) =
          w ++ '\n' :: joinSep (str "\n") (w2 :: ws2) := by
        show w ++ str "\n" ++ _ = _
        simp [str]
      show (splitlinesAux (joinSep (str "\n") (w :: w2 :: ws2)) [] false).length ≤ _
      rw [hjoin, splitlinesAux_word (h w (by simp)) []]
      have := ih (fun x hx => h x (by simp [hx]))
      simp only [pySplitlines] at this
      simpa using Nat.add_le_add_left this 1

/-- Truncating the input cannot increase the number of lines. -/
theorem splitlinesAux_take_le (l : Str) : ∀ (n : Nat) (acc : Str) (b : Bool),
    (splitlinesAux (l.take n) acc b).length ≤ (splitlinesAux l acc b).length := by
  induction l with
  | nil =>
    intro n acc b
    simp
  | cons c r ih =>
    intro n acc b
    cases n with
    | zero =>
      by_cases hacc : acc = []
      · simp [splitlinesAux, hacc]
      · simpa [splitlinesAux, hacc] using splitlinesAux_length_pos (c :: r) acc b hacc
    | succ m =>
      simp only [List.take_succ_cons, splitlinesAux]
      split_ifs with h1 h2
      · exact ih m acc false
      · simpa using ih m [] (decide (c = '\r'))
      · exact ih m (acc ++ [c]) false

theorem pySplitlines_take_le (l : Str) (n : Nat) :
    (pySplitlines (l.take n)).length ≤ (pySplitlines l).length :=
  splitlinesAux_take_le l n [] false

/-- The Instagram caption never has more than the configured maximum
number of lines. -/
theorem instaCaption_lines_le (t : Str) :
    (pySplitlines (instaCaption t)).length ≤ 10 := by
  have hgood : ∀ w ∈ pySplitlines (pyStrip t), ∀ c ∈ w, isLB c = false :=
    splitlinesAux_good (pyStrip t) [] false (by simp)
  have hgood10 : ∀ w ∈ (pySplitlines (pyStrip t)).take 10, ∀ c ∈ w, isLB c = false :=
    fun w hw => hgood w (List.take_subset 10 _ hw)
  unfold instaCaption
  simp only [instagramCfg, Option.getD_some]
  split_ifs with h1 h2 h3
  · calc (pySplitlines ((joinSep (str "\n") ((pySplitlines (pyStrip t)).take 10)).take 2200)).length
        ≤ (pySplitlines (joinSep (str "\n") ((pySplitlines (pyStrip t)).take 10))).length :=
          pySplitlines_take_le _ 2200
      _ ≤ ((pySplitlines (pyStrip t)).take 10).length := pySplitlines_joinSep_le _ hgood10
      _ ≤ 10 := by simp
  · calc (pySplitlines (joinSep (str "\n") ((pySplitlines (pyStrip t)).take 10))).length
        ≤ ((pySplitlines (pyStrip t)).take 10).length := pySplitlines_joinSep_le _ hgood10
      _ ≤ 10 := by simp
  · calc (pySplitlines ((pyStrip t).take 2200)).length
        ≤ (pySplitlines (pyStrip t)).length := pySplitlines_take_le _ 2200
      _ ≤ 10 := by omega
  · omega

/-- The Instagram caption never has more than the configured maximum
number of raw characters. -/
theorem instaCaption_chars_le (t : Str) : (instaCaption t).length ≤ 2200 := by
  unfold instaCaption
  simp only [instagramCfg, Option.getD_some]
  split_ifs with h1 h2 h3
  · simp
  · omega
  · simp
  · omega

/-! ### Lemmas: formatter branch equations -/

theorem fmt_unknown_eq (p text : Str) (tags : List Str)
    (h : PLATFORM_CONFIG (toLowerStr p) = none) :
    platform_formatting_tool p text tags =
      { platform := toLowerStr p
        formatted_text := normalizeWs text
        warning := some (str "Unknown platform; no specific formatting applied.") } := by
  simp only [platform_formatting_tool]
  rw [if_pos h]

theorem fmt_empty_eq (p text : Str) (tags : List Str)
    (hp : PLATFORM_CONFIG (toLowerStr p) ≠ none) (h : pyStrip text = []) :
    platform_formatting_tool p text tags =
      { platform := toLowerStr p
        formatted_text := str "[EMPTY CONTENT] No text was provided to format."
        warning := some (str "Input text was empty.") } := by
  simp only [platform_formatting_tool]
  rw [if_neg hp, if_pos h]

theorem fmt_instagram_eq (p text : Str) (tags : List Str)
    (hp : toLowerStr p = str "instagram") (h : pyStrip text ≠ []) :
    platform_formatting_tool p text tags =
      { platform := str "instagram"
        formatted_text :=
          if instaBlock tags = [] then instaCaption text
          else instaCaption text ++ str "\n\n" ++ instaBlock tags
        caption := some (instaCaption text)
        hashtag_block := some (instaBlock tags) } := by
  simp only [platform_formatting_tool, hp]
  rw [if_neg (by decide), if_neg h, if_neg (by decide), if_pos trivial]

theorem fmt_linkedin_eq (p text : Str) (tags : List Str)
    (hp : toLowerStr p = str "linkedin") (h : pyStrip text ≠ []) :
    platform_formatting_tool p text tags =
      (if (pySplit (normalizeWs (pyStrip text))).length > 220 then
        { platform := str "linkedin"
          formatted_text := joinSep (str " ") ((pySplit (normalizeWs (pyStrip text))).take 220)
          length_warning := some (some
            (str "Trimmed LinkedIn post to " ++ natStr 220 ++ str " words.")) }
      else if (pySplit (normalizeWs (pyStrip text))).length < 80 then
        { platform := str "linkedin"
          formatted_text := normalizeWs (pyStrip text)
          length_warning := some (some
            (str "LinkedIn post is quite short (" ++
              natStr (pySplit (normalizeWs (pyStrip text))).length ++ str " words).")) }
      else
        { platform := str "linkedin"
          formatted_text := normalizeWs (pyStrip text)
          length_warning := some none }) := by
  simp only [platform_formatting_tool, hp]
  rw [if_neg (by decide), if_neg h, if_pos trivial]
  simp only [linkedinCfg, Option.getD_some]

theorem fmt_email_eq (p text : Str) (tags : List Str)
    (hp : toLowerStr p = str "email") (h : pyStrip text ≠ []) :
    platform_formatting_tool p text tags =
      (if (pySplit (normalizeWs (pyStrip text))).length > 160 then
        { platform := str "email"
          formatted_text := joinSep (str " ") ((pySplit (normalizeWs (pyStrip text))).take 160)
          length_warning := some (some
            (str "Trimmed email blurb to " ++ natStr 160 ++ str " words.")) }
      else if (pySplit (normalizeWs (pyStrip text))).length < 40 then
        { platform := str "email"
          formatted_text := normalizeWs (pyStrip text)
          length_warning := some (some
            (str "Email blurb is quite short (" ++
              natStr (pySplit (normalizeWs (pyStrip text))).length ++ str " words).")) }
      else
        { platform := str "email"
          formatted_text := normalizeWs (pyStrip text)
          length_warning := some none }) := by
  simp only [platform_formatting_tool, hp]
  rw [if_neg (by decide), if_neg h, if_neg (by decide), if_neg (by decide), if_pos trivial]
  simp only [emailCfg, Option.getD_some]

theorem scorer_eq (p text : Str) (h : pyStrip text ≠ []) :
    quality_and_reach_scorer p text = scorerBody (toLowerStr p) (pyStrip text) := by
  simp only [quality_and_reach_scorer]
  rw [if_neg h]

/-! ### Lemmas: rounding and dimension bounds -/

theorem pyRound2_le (q : ℚ) : pyRound2 q ≤ q + 1/200 := by
  simp only [pyRound2]
  have h1 : ((⌊q * 100⌋ : ℚ)) ≤ q * 100 := Int.floor_le _
  have h2 : q * 100 < (⌊q * 100⌋ : ℚ) + 1 := Int.lt_floor_add_one _
  split_ifs with hf hg he <;>
  · rw [div_le_iff₀ (by norm_num : (0:ℚ) < 100)]
    push_cast
    linarith

theorem le_pyRound2 (q : ℚ) : q - 1/200 ≤ pyRound2 q := by
  simp only [pyRound2]
  have h1 : ((⌊q * 100⌋ : ℚ)) ≤ q * 100 := Int.floor_le _
  have h2 : q * 100 < (⌊q * 100⌋ : ℚ) + 1 := Int.lt_floor_add_one _
  split_ifs with hf hg he <;>
  · rw [le_div_iff₀ (by norm_num : (0:ℚ) < 100)]
    push_cast
    linarith

theorem clarityScore_le (t : Str) (wc : Nat) : clarityScore t wc ≤ 0.8 := by
  simp only [clarityScore]
  split_ifs <;> norm_num

theorem lengthScore_le (p : Str) (wc : Nat) : lengthScore p wc ≤ 0.9 := by
  simp only [lengthScore]
  split_ifs <;> norm_num

theorem hookScore_le (o : Str) : hookScore o ≤ 0.85 := by
  simp only [hookScore]
  split_ifs <;> norm_num [max_le_iff]

theorem ctaScore_le (t : Str) : ctaScore t ≤ 0.9 := by
  simp only [ctaScore]
  split_ifs <;> norm_num

theorem hashtagScore_le (t : Str) : hashtagScore t ≤ 0.9 := by
  simp only [hashtagScore]
  split_ifs <;> norm_num

/-- The non-`None` dimension values, as an explicit list. -/
theorem scorerDims_numeric (p t : Str) :
    (scorerDims p t).filterMap Prod.snd =
      (if p = str "instagram" then
        [clarityScore t (scorerWordCount t), 0.8,
         lengthScore p (scorerWordCount t), hookScore (firstSentence t),
         ctaScore t, hashtagScore t]
      else
        [clarityScore t (scorerWordCount t), 0.8,
         lengthScore p (scorerWordCount t), hookScore (firstSentence t),
         ctaScore t]) := by
  by_cases hp : p = str "instagram" <;>
    simp [scorerDims, hp, List.filterMap_cons]

/-- Whatever the platform and text, the rounded mean of the heuristic
dimensions stays strictly below 0.9: the dimensions are bounded by
0.8, 0.8, 0.9, 0.85, 0.9 (and 0.9), so the mean is at most 5.15/6. -/
theorem scorerBody_score_lt (p t : Str) : (scorerBody p t).score < 9/10 := by
  have hc := clarityScore_le t (scorerWordCount t)
  have hl := lengthScore_le p (scorerWordCount t)
  have hh := hookScore_le (firstSentence t)
  have hcta := ctaScore_le t
  have hht := hashtagScore_le t
  simp only [scorerBody, scorerDims_numeric]
  by_cases hp : p = str "instagram"
  · rw [if_pos hp]
    rw [if_neg (by simp)]
    refine lt_of_le_of_lt (pyRound2_le _) ?_
    simp only [List.sum_cons, List.sum_nil, List.length_cons, List.length_nil]
    push_cast
    norm_num at hc hl hh hcta hht ⊢
    linarith
  · rw [if_neg hp]
    rw [if_neg (by simp)]
    refine lt_of_le_of_lt (pyRound2_le _) ?_
    simp only [List.sum_cons, List.sum_nil, List.length_cons, List.length_nil]
    push_cast
    norm_num at hc hl hh hcta hht ⊢
    linarith

/-- Key lookup of the `hashtag_richness` entry in the dimensions dict. -/
theorem scorerDims_lookup_ht (p t : Str) :
    (scorerDims p t).lookup (str "hashtag_richness") =
      some (if p = str "instagram" then some (hashtagScore t) else none) := by
  simp [scorerDims, List.lookup,
    show (str "hashtag_richness" == str "clarity") = false from by decide,
    show (str "hashtag_richness" == str "tone_match") = false from by decide,
    show (str "hashtag_richness" == str "length_appropriateness") = false from by decide,
    show (str "hashtag_richness" == str "hook_strength") = false from by decide,
    show (str "hashtag_richness" == str "cta_quality") = false from by decide,
    show (str "hashtag_richness" == str "hashtag_richness") = true from by decide]

/-! ### Claim theorems -/

/-- Claim C5: for every platform identifier and every text that is empty or
whitespace-only after trimming, `quality_and_reach_scorer` returns score 0.0,
an empty dimensions mapping, and summary feedback exactly
"No text to evaluate.", short-circuiting before any other computation. -/
theorem scorer_empty_text (p text : Str) (h : pyStrip text = []) :
    quality_and_reach_scorer p text =
      { platform := toLowerStr p, score := 0, dimensions := [],
        summary_feedback := str "No text to evaluate." } := by
  simp only [quality_and_reach_scorer]
  rw [if_pos h]

/-- Witness for C5 at platform "LinkedIn" and whitespace-only text. -/
theorem scorer_empty_text_witness :
    pyStrip (str " \t ") = [] ∧
    quality_and_reach_scorer (str "LinkedIn") (str " \t ") =
      { platform := str "linkedin", score := 0, dimensions := [],
        summary_feedback := str "No text to evaluate." } :=
  ⟨by decide, (scorer_empty_text (str "LinkedIn") (str " \t ") (by decide)).trans (by decide)⟩

/-- Claim C6: the refinement decision requests a rewrite iff a score is
present and strictly below the fixed threshold 0.90; an absent score and
the boundary score 0.90 itself decide "no refinement", while 0.8999
decides "refine". -/
theorem needs_refinement_iff :
    (∀ q : ℚ, needsRefinement (some q) = decide (q < REFINEMENT_THRESHOLD)) ∧
    needsRefinement none = false ∧
    needsRefinement (some (9/10)) = false ∧
    needsRefinement (some (8999/10000)) = true := by
  refine ⟨fun q => ?_, by decide, by decide, by decide⟩
  simp only [needsRefinement, skipRefinement, ← decide_not, not_le]

/-- Claim C3: on every non-empty (after trimming) text the heuristic score
is strictly below the refinement threshold 0.90, so the refinement
decision of `maybe_refine` requests a rewrite for every successfully
scored non-empty content. -/
theorem scorer_always_below_threshold (p text : Str) (h : pyStrip text ≠ []) :
    (quality_and_reach_scorer p text).score < 9/10 ∧
    needsRefinement (some ((quality_and_reach_scorer p text).score)) = true := by
  have hs : (quality_and_reach_scorer p text).score < 9/10 := by
    rw [scorer_eq p text h]
    exact scorerBody_score_lt _ _
  refine ⟨hs, ?_⟩
  simp only [needsRefinement, skipRefinement, ← decide_not, not_le, decide_eq_true_eq]
  calc (quality_and_reach_scorer p text).score < 9/10 := hs
    _ ≤ REFINEMENT_THRESHOLD := by norm_num [REFINEMENT_THRESHOLD]

/-- Witness for C3 at platform "linkedin" and text "hello". -/
theorem scorer_always_below_threshold_witness :
    pyStrip (str "hello") ≠ [] ∧
    (quality_and_reach_scorer (str "linkedin") (str "hello")).score < 9/10 :=
  ⟨by decide, (scorer_always_below_threshold (str "linkedin") (str "hello") (by decide)).1⟩

/-- Claim C4: on non-empty text the dimensions mapping has exactly 6
present (non-`None`) dimensions for instagram and exactly 5 for
linkedin/email, where the `hashtag_richness` entry is absent (`None`). -/
theorem scorer_dimension_count (p text : Str) (h : pyStrip text ≠ []) :
    (toLowerStr p = str "instagram" →
      ((quality_and_reach_scorer p text).dimensions.filterMap Prod.snd).length = 6) ∧
    ((toLowerStr p = str "linkedin" ∨ toLowerStr p = str "email") →
      ((quality_and_reach_scorer p text).dimensions.filterMap Prod.snd).length = 5 ∧
      (quality_and_reach_scorer p text).dimensions.lookup (str "hashtag_richness") =
        some none) := by
  rw [scorer_eq p text h]
  constructor
  · intro hp
    simp only [scorerBody]
    rw [scorerDims_numeric, if_pos hp]
    simp
  · intro hp
    have hne : toLowerStr p ≠ str "instagram" := by
      rcases hp with hp | hp <;> rw [hp] <;> decide
    constructor
    · simp only [scorerBody]
      rw [scorerDims_numeric, if_neg hne]
      simp
    · simp only [scorerBody]
      rw [scorerDims_lookup_ht, if_neg hne]

/-- Witness for C4 at platforms "Instagram" and "linkedin", text "hello". -/
theorem scorer_dimension_count_witness :
    (pyStrip (str "hello") ≠ [] ∧ toLowerStr (str "Instagram") = str "instagram" ∧
      ((quality_and_reach_scorer (str "Instagram") (str "hello")).dimensions.filterMap
        Prod.snd).length = 6) ∧
    (((quality_and_reach_scorer (str "linkedin") (str "hello")).dimensions.filterMap
        Prod.snd).length = 5 ∧
      (quality_and_reach_scorer (str "linkedin") (str "hello")).dimensions.lookup
        (str "hashtag_richness") = some none) :=
  ⟨⟨by decide, by decide,
    (scorer_dimension_count (str "Instagram") (str "hello") (by decide)).1 (by decide)⟩,
   (scorer_dimension_count (str "linkedin") (str "hello") (by decide)).2
     (Or.inl (by decide))⟩

/-- Claim C9: the formatter never fails on malformed input: an unknown
platform returns the whitespace-normalized text with a warning, and a
known platform with empty/whitespace-only text returns the literal
placeholder string with a warning. -/
theorem formatter_total_fallbacks :
    (∀ (p text : Str) (tags : List Str), PLATFORM_CONFIG (toLowerStr p) = none →
      platform_formatting_tool p text tags =
        { platform := toLowerStr p
          formatted_text := normalizeWs text
          warning := some (str "Unknown platform; no specific formatting applied.") }) ∧
    (∀ (p text : Str) (tags : List Str),
      PLATFORM_CONFIG (toLowerStr p) ≠ none → pyStrip text = [] →
      platform_formatting_tool p text tags =
        { platform := toLowerStr p
          formatted_text := str "[EMPTY CONTENT] No text was provided to format."
          warning := some (str "Input text was empty.") }) :=
  ⟨fmt_unknown_eq, fmt_empty_eq⟩

/-- Witness for C9 at unknown platform "Twitter" and at "linkedin" with
whitespace-only text. -/
theorem formatter_total_fallbacks_witness :
    (PLATFORM_CONFIG (toLowerStr (str "Twitter")) = none ∧
      platform_formatting_tool (str "Twitter") (str " a  b ") [] =
        { platform := str "twitter"
          formatted_text := str "a b"
          warning := some (str "Unknown platform; no specific formatting applied.") }) ∧
    (PLATFORM_CONFIG (toLowerStr (str "linkedin")) ≠ none ∧ pyStrip (str "  ") = [] ∧
      platform_formatting_tool (str "linkedin") (str "  ") [] =
        { platform := str "linkedin"
          formatted_text := str "[EMPTY CONTENT] No text was provided to format."
          warning := some (str "Input text was empty.") }) :=
  ⟨⟨by decide,
    (formatter_total_fallbacks.1 (str "Twitter") (str " a  b ") [] (by decide)).trans
      (by decide)⟩,
   ⟨by decide, by decide,
    (formatter_total_fallbacks.2 (str "linkedin") (str "  ") [] (by decide)
      (by decide)).trans (by decide)⟩⟩

/-- The score of the non-degenerate scorer branch is exactly the rounded
mean of the present dimension values. -/
theorem scorerBody_score_spec (p t : Str) :
    (scorerBody p t).dimensions.filterMap Prod.snd ≠ [] ∧
    (scorerBody p t).score =
      pyRound2 (((scorerBody p t).dimensions.filterMap Prod.snd).sum /
        (((scorerBody p t).dimensions.filterMap Prod.snd).length : ℚ)) := by
  have hne : (scorerDims p t).filterMap Prod.snd ≠ [] := by
    rw [scorerDims_numeric]
    split_ifs <;> simp
  constructor
  · simpa only [scorerBody] using hne
  · simp only [scorerBody]
    rw [if_neg hne]

/-- Claim C1 (amended): the caption component of the Instagram formatter
always satisfies both configured bounds (at most 10 newline-delimited
lines, at most 2200 raw characters), and `formatted_text` satisfies them
whenever the hashtag block is empty; with a non-empty hashtag block,
`formatted_text` is the caption plus a blank line plus the block and can
exceed both bounds. -/
theorem instagram_caption_within_limits (text : Str) (tags : List Str)
    (h : pyStrip text ≠ []) :
    ((platform_formatting_tool (str "instagram") text tags).caption =
        some (instaCaption text) ∧
      (pySplitlines (instaCaption text)).length ≤ 10 ∧
      (instaCaption text).length ≤ 2200) ∧
    ((platform_formatting_tool (str "instagram") text tags).hashtag_block = some [] →
      (pySplitlines
          ((platform_formatting_tool (str "instagram") text tags).formatted_text)).length
        ≤ 10 ∧
      ((platform_formatting_tool (str "instagram") text tags).formatted_text).length
        ≤ 2200) := by
  have heq := fmt_instagram_eq (str "instagram") text tags (by decide) h
  refine ⟨⟨by rw [heq], instaCaption_lines_le text, instaCaption_chars_le text⟩, ?_⟩
  intro hb
  have hblock : instaBlock tags = [] := by
    rw [heq] at hb
    simpa using hb
  rw [heq]
  simp only [hblock, if_pos rfl]
  exact ⟨instaCaption_lines_le text, instaCaption_chars_le text⟩

/-- Counterexample to C1 as stated: with an 11-line caption and one
hashtag, `formatted_text` = 10-line caption + blank line + hashtag block
has 12 newline-delimited lines, exceeding the configured maximum of 10. -/
theorem instagram_formatted_text_exceeds_limits :
    ¬ ((pySplitlines ((platform_formatting_tool (str "instagram")
          (str "a\nb\nc\nd\ne\nf\ng\nh\ni\nj\nk") [str "x"]).formatted_text)).length ≤ 10 ∧
       (((platform_formatting_tool (str "instagram")
          (str "a\nb\nc\nd\ne\nf\ng\nh\ni\nj\nk") [str "x"]).formatted_text)).length ≤ 2200) := by
  decide

/-- Witness for the amended C1 at a one-line caption. -/
theorem instagram_caption_within_limits_witness :
    pyStrip (str "hello") ≠ [] ∧
    (platform_formatting_tool (str "instagram") (str "hello") [str "x"]).caption =
      some (str "hello") ∧
    (pySplitlines (str "hello")).length ≤ 10 :=
  ⟨by decide,
   ((instagram_caption_within_limits (str "hello") [str "x"] (by decide)).1.1).trans
     (by decide),
   by decide⟩

/-- Claim C2 (amended): the score returned by `quality_and_reach_scorer`
is the arithmetic mean of the present (non-absent) dimension values
rounded to two decimal places (Python `round(..., 2)`), hence within
1/200 of the exact mean; absent dimensions are excluded from numerator
and denominator. -/
theorem scorer_score_is_rounded_mean (p text : Str) (h : pyStrip text ≠ []) :
    (quality_and_reach_scorer p text).dimensions.filterMap Prod.snd ≠ [] ∧
    (quality_and_reach_scorer p text).score =
      pyRound2 (((quality_and_reach_scorer p text).dimensions.filterMap Prod.snd).sum /
        (((quality_and_reach_scorer p text).dimensions.filterMap Prod.snd).length : ℚ)) ∧
    |(quality_and_reach_scorer p text).score -
        ((quality_and_reach_scorer p text).dimensions.filterMap Prod.snd).sum /
          (((quality_and_reach_scorer p text).dimensions.filterMap Prod.snd).length : ℚ)|
      ≤ 1/200 := by
  rw [scorer_eq p text h]
  obtain ⟨hne, hsc⟩ := scorerBody_score_spec (toLowerStr p) (pyStrip text)
  refine ⟨hne, hsc, ?_⟩
  rw [hsc]
  rw [abs_sub_le_iff]
  constructor
  · linarith [pyRound2_le (((scorerBody (toLowerStr p) (pyStrip text)).dimensions.filterMap
      Prod.snd).sum / (((scorerBody (toLowerStr p) (pyStrip text)).dimensions.filterMap
      Prod.snd).length : ℚ))]
  · linarith [le_pyRound2 (((scorerBody (toLowerStr p) (pyStrip text)).dimensions.filterMap
      Prod.snd).sum / (((scorerBody (toLowerStr p) (pyStrip text)).dimensions.filterMap
      Prod.snd).length : ℚ))]

/-- Counterexample to C2 as stated: on instagram text
"Imagine you share this. #tag" the six dimensions sum to 4.35, the mean
is 0.725, but the returned score is `round(0.725, 2)` = 0.72. -/
theorem scorer_score_not_mean :
    (quality_and_reach_scorer (str "instagram")
        (str "Imagine you share this. #tag")).score ≠
      ((quality_and_reach_scorer (str "instagram")
          (str "Imagine you share this. #tag")).dimensions.filterMap Prod.snd).sum /
        (((quality_and_reach_scorer (str "instagram")
            (str "Imagine you share this. #tag")).dimensions.filterMap Prod.snd).length
          : ℚ) := by
  decide

/-- Witness for the amended C2 at platform "linkedin", text "hello". -/
theorem scorer_score_is_rounded_mean_witness :
    pyStrip (str "hello") ≠ [] ∧
    (quality_and_reach_scorer (str "linkedin") (str "hello")).score =
      pyRound2 (((quality_and_reach_scorer (str "linkedin")
          (str "hello")).dimensions.filterMap Prod.snd).sum /
        (((quality_and_reach_scorer (str "linkedin")
            (str "hello")).dimensions.filterMap Prod.snd).length : ℚ)) :=
  ⟨by decide, (scorer_score_is_rounded_mean (str "linkedin") (str "hello") (by decide)).2.1⟩

/-- Re-splitting the first `k` words of a stripped text. -/
theorem pySplit_join_take (text : Str) (k : Nat) :
    pySplit (joinSep (str " ") ((pySplit (pyStrip text)).take k)) =
      (pySplit (pyStrip text)).take k :=
  pySplit_joinSep _ (fun w hw => pySplit_good _ w (List.take_subset _ _ hw))

/-- Claim C7: for linkedin and email with non-empty text, the formatter
whitespace-normalizes the text and never emits more words than the
platform maximum; above the maximum it truncates to exactly that many
words at word boundaries with a trimmed warning, below the minimum it
flags a too-short warning while leaving the normalized content
unchanged. -/
theorem formatter_word_caps (text : Str) (tags : List Str) (h : pyStrip text ≠ []) :
    ((pySplit ((platform_formatting_tool (str "linkedin") text tags).formatted_text)).length
        ≤ 220 ∧
      ((pySplit (pyStrip text)).length > 220 →
        (platform_formatting_tool (str "linkedin") text tags).formatted_text =
          joinSep (str " ") ((pySplit (pyStrip text)).take 220) ∧
        (platform_formatting_tool (str "linkedin") text tags).length_warning =
          some (some (str "Trimmed LinkedIn post to 220 words."))) ∧
      ((pySplit (pyStrip text)).length < 80 →
        (platform_formatting_tool (str "linkedin") text tags).formatted_text =
          normalizeWs (pyStrip text) ∧
        (platform_formatting_tool (str "linkedin") text tags).length_warning =
          some (some (str "LinkedIn post is quite short (" ++
            natStr (pySplit (pyStrip text)).length ++ str " words)."))) ∧
      ((pySplit (pyStrip text)).length ≤ 220 →
        (platform_formatting_tool (str "linkedin") text tags).formatted_text =
          normalizeWs (pyStrip text))) ∧
    ((pySplit ((platform_formatting_tool (str "email") text tags).formatted_text)).length
        ≤ 160 ∧
      ((pySplit (pyStrip text)).length > 160 →
        (platform_formatting_tool (str "email") text tags).formatted_text =
          joinSep (str " ") ((pySplit (pyStrip text)).take 160) ∧
        (platform_formatting_tool (str "email") text tags).length_warning =
          some (some (str "Trimmed email blurb to 160 words."))) ∧
      ((pySplit (pyStrip text)).length < 40 →
        (platform_formatting_tool (str "email") text tags).formatted_text =
          normalizeWs (pyStrip text) ∧
        (platform_formatting_tool (str "email") text tags).length_warning =
          some (some (str "Email blurb is quite short (" ++
            natStr (pySplit (pyStrip text)).length ++ str " words)."))) ∧
      ((pySplit (pyStrip text)).length ≤ 160 →
        (platform_formatting_tool (str "email") text tags).formatted_text =
          normalizeWs (pyStrip text))) := by
  have hws : pySplit (normalizeWs (pyStrip text)) = pySplit (pyStrip text) :=
    pySplit_normalizeWs _
  constructor
  · have heq := fmt_linkedin_eq (str "linkedin") text tags (by decide) h
    rw [hws] at heq
    rw [heq]
    by_cases h1 : (pySplit (pyStrip text)).length > 220
    · rw [if_pos h1]
      refine ⟨?_, fun _ => ⟨rfl, by
        show some (some (str "Trimmed LinkedIn post to " ++ natStr 220 ++ str " words.")) = _
        decide⟩, fun h2 => absurd h1 (by omega), fun h2 => absurd h1 (by omega)⟩
      rw [pySplit_join_take]
      simp [List.length_take]
    · rw [if_neg h1]
      by_cases h2 : (pySplit (pyStrip text)).length < 80
      · rw [if_pos h2]
        exact ⟨by rw [hws]; omega, fun h3 => absurd h3 (by omega), fun _ => ⟨rfl, rfl⟩,
          fun _ => rfl⟩
      · rw [if_neg h2]
        exact ⟨by rw [hws]; omega, fun h3 => absurd h3 (by omega),
          fun h3 => absurd h3 (by omega), fun _ => rfl⟩
  · have heq := fmt_email_eq (str "email") text tags (by decide) h
    rw [hws] at heq
    rw [heq]
    by_cases h1 : (pySplit (pyStrip text)).length > 160
    · rw [if_pos h1]
      refine ⟨?_, fun _ => ⟨rfl, by
        show some (some (str "Trimmed email blurb to " ++ natStr 160 ++ str " words.")) = _
        decide⟩, fun h2 => absurd h1 (by omega), fun h2 => absurd h1 (by omega)⟩
      rw [pySplit_join_take]
      simp [List.length_take]
    · rw [if_neg h1]
      by_cases h2 : (pySplit (pyStrip text)).length < 40
      · rw [if_pos h2]
        exact ⟨by rw [hws]; omega, fun h3 => absurd h3 (by omega), fun _ => ⟨rfl, rfl⟩,
          fun _ => rfl⟩
      · rw [if_neg h2]
        exact ⟨by rw [hws]; omega, fun h3 => absurd h3 (by omega),
          fun h3 => absurd h3 (by omega), fun _ => rfl⟩

/-- Witness for C7 at the three-word text "one two three". -/
theorem formatter_word_caps_witness :
    pyStrip (str "one two three") ≠ [] ∧
    (pySplit ((platform_formatting_tool (str "linkedin") (str "one two three")
        []).formatted_text)).length ≤ 220 ∧
    (pySplit ((platform_formatting_tool (str "email") (str "one two three")
        []).formatted_text)).length ≤ 160 :=
  ⟨by decide,
   (formatter_word_caps (str "one two three") [] (by decide)).1.1,
   (formatter_word_caps (str "one two three") [] (by decide)).2.1⟩

/-- Deduplication keeps no tag whose lowercase form was already seen, and
its output is pairwise distinct modulo lowercasing. -/
theorem dedupTags_spec (tags : List Str) : ∀ seen : List Str,
    (∀ x ∈ dedupTags seen tags, toLowerStr x ∉ seen) ∧
    (dedupTags seen tags).Pairwise (fun a b => toLowerStr a ≠ toLowerStr b) := by
  induction tags with
  | nil => intro seen; simp [dedupTags]
  | cons t rest ih =>
    intro seen
    simp only [dedupTags]
    by_cases hmem : toLowerStr t ∈ seen
    · rw [if_pos hmem]
      exact ih seen
    · rw [if_neg hmem]
      obtain ⟨ih1, ih2⟩ := ih (toLowerStr t :: seen)
      refine ⟨?_, ?_⟩
      · intro x hx
        rcases List.mem_cons.mp hx with rfl | hx
        · exact hmem
        · intro hxs
          exact ih1 x hx (List.mem_cons_of_mem _ hxs)
      · refine List.Pairwise.cons ?_ ih2
        intro b hb
        have := ih1 b hb
        intro hEq
        exact this (hEq ▸ List.mem_cons_self _ _)

/-- Every cleaned tag is nonempty and begins with `#`. -/
theorem cleanTags_spec (tags : List Str) :
    ∀ x ∈ cleanTags tags, x ≠ [] ∧ x.head? = some '#' := by
  induction tags with
  | nil => simp [cleanTags]
  | cons tag rest ih =>
    intro x hx
    simp only [cleanTags] at hx
    by_cases he : pyStrip tag = []
    · rw [if_pos he] at hx
      exact ih x hx
    · rw [if_neg he] at hx
      rcases List.mem_cons.mp hx with rfl | hx
      · by_cases hh : (pyStrip tag).head? = some '#'
        · rw [if_pos hh]
          exact ⟨he, hh⟩
        · rw [if_neg hh]
          simp
      · exact ih x hx

/-- Claim C8: instagram hashtag handling — tags are trimmed, empties
dropped, `#` prepended when missing, deduplicated case-insensitively
preserving first-seen order and casing, and the hashtag block joins the
result with single spaces; `["#Go", "go", "#GO"]` yields exactly the tag
`#Go`, and `["marketing", "#Marketing", " growth "]` yields the block
`#marketing #growth`. -/
theorem hashtag_pipeline :
    (∀ (text : Str) (tags : List Str), pyStrip text ≠ [] →
      (platform_formatting_tool (str "instagram") text tags).hashtag_block =
        some (joinSep (str " ") (dedupTags [] (cleanTags tags)))) ∧
    (∀ tags : List Str, (dedupTags [] (cleanTags tags)).Pairwise
      (fun a b => toLowerStr a ≠ toLowerStr b)) ∧
    (∀ (tags : List Str) (x : Str), x ∈ cleanTags tags → x ≠ [] ∧ x.head? = some '#') ∧
    (platform_formatting_tool (str "instagram") (str "sample text")
        [str "#Go", str "go", str "#GO"]).hashtag_block = some (str "#Go") ∧
    (platform_formatting_tool (str "instagram") (str "sample text")
        [str "marketing", str "#Marketing", str " growth "]).hashtag_block =
      some (str "#marketing #growth") := by
  refine ⟨?_, fun tags => (dedupTags_spec (cleanTags tags) []).2,
    fun tags x hx => cleanTags_spec tags x hx, by decide, by decide⟩
  intro text tags h
  rw [fmt_instagram_eq (str "instagram") text tags (by decide) h]
  rfl

/-- Witness for C8 using its universally quantified first component. -/
theorem hashtag_pipeline_witness :
    pyStrip (str "sample text") ≠ [] ∧
    (platform_formatting_tool (str "instagram") (str "sample text")
        [str "a", str "A"]).hashtag_block =
      some (joinSep (str " ") (dedupTags [] (cleanTags [str "a", str "A"]))) :=
  ⟨by decide, hashtag_pipeline.1 (str "sample text") [str "a", str "A"] (by decide)⟩

/-! ### Lemmas: substring containment for the fallback string -/

theorem infix_iff_exists_drop {m h : Str} : m <:+: h ↔ ∃ i, m <+: h.drop i := by
  constructor
  · rintro ⟨s, t, rfl⟩
    refine ⟨s.length, ?_⟩
    rw [List.append_assoc, List.drop_left]
    exact ⟨t, rfl⟩
  · rintro ⟨i, hp⟩
    exact hp.isInfix.trans (List.drop_suffix i h).isInfix

theorem prefix_of_append_of_le {m a b : Str} (h : m <+: a ++ b)
    (hl : m.length ≤ a.length) : m <+: a := by
  rw [List.prefix_iff_eq_take] at h ⊢
  rw [List.take_append_of_le_length hl] at h
  exact h

theorem append_head_of_le {m a b : Str} (h : m <+: a ++ b)
    (hl : a.length ≤ m.length) : a <+: m := by
  rw [List.prefix_iff_eq_take] at h ⊢
  have h1 : List.take a.length (a ++ b) = a := by
    rw [List.take_append_of_le_length le_rfl, List.take_length]
  rw [h, List.take_take, min_eq_left hl, h1]

theorem pyStrip_within (l : Str) : pyStrip l <:+: l := by
  have h1 : pyStrip l <+: l.dropWhile isPyWs := by
    rw [← List.reverse_suffix, pyStrip, List.reverse_reverse]
    exact List.dropWhile_suffix _
  exact h1.isInfix.trans (List.dropWhile_suffix _).isInfix

theorem mem_dropWhile_of_mem {c : Char} {l : Str} (hc : c ∈ l)
    (hp : isPyWs c = false) : c ∈ l.dropWhile isPyWs := by
  induction l with
  | nil => cases hc
  | cons d r ih =>
    rw [List.dropWhile_cons]
    by_cases hd : isPyWs d
    · rw [if_pos hd]
      rcases List.mem_cons.mp hc with rfl | hcr
      · rw [hp] at hd
        cases hd
      · exact ih hcr
    · rw [if_neg hd]
      exact hc

theorem pyStrip_ne_nil_of_mem {c : Char} {l : Str} (hc : c ∈ l)
    (hp : isPyWs c = false) : pyStrip l ≠ [] := by
  intro h0
  rw [pyStrip, List.reverse_eq_nil_iff, List.dropWhile_eq_nil_iff] at h0
  have h3 : c ∈ (l.dropWhile isPyWs).reverse :=
    List.mem_reverse.mpr (mem_dropWhile_of_mem hc hp)
  have := h0 c h3
  rw [hp] at this
  cases this

/-- The preamble of the fallback string contains `[` only at position 0,
so no occurrence of the marker can start inside the preamble; hence the
concatenation contains the marker only when `e` does. -/
theorem fallback_marker_free (e : Str) (h : ¬ FALLBACK_MARKER <:+: e) :
    ¬ FALLBACK_MARKER <:+: fallbackOutput e := by
  intro hyp
  rw [infix_iff_exists_drop] at hyp
  obtain ⟨i, hp⟩ := hyp
  have hplen : (str "[FALLBACK OUTPUT] Unable to generate content due to: ").length = 53 := by
    decide
  by_cases hi : i < 53
  · have hdrop : (fallbackOutput e).drop i =
        (str "[FALLBACK OUTPUT] Unable to generate content due to: ").drop i ++ e := by
      show ((str "[FALLBACK OUTPUT] Unable to generate content due to: ") ++ e).drop i = _
      rw [List.drop_append_eq_append_drop]
      have hz : i - (str "[FALLBACK OUTPUT] Unable to generate content due to: ").length
          = 0 := by omega
      rw [hz]
      simp
    rw [hdrop] at hp
    by_cases hlen : i ≤ 43
    · have h10 : FALLBACK_MARKER.length ≤
          ((str "[FALLBACK OUTPUT] Unable to generate content due to: ").drop i).length := by
        rw [List.length_drop, hplen]
        have : FALLBACK_MARKER.length = 10 := by decide
        omega
      have hpre := prefix_of_append_of_le hp h10
      have hall : ∀ j : Nat, j < 44 → ¬ (FALLBACK_MARKER <+:
          (str "[FALLBACK OUTPUT] Unable to generate content due to: ").drop j) := by
        decide
      exact hall i (by omega) hpre
    · have h10 : ((str "[FALLBACK OUTPUT] Unable to generate content due to: ").drop
          i).length ≤ FALLBACK_MARKER.length := by
        rw [List.length_drop, hplen]
        have : FALLBACK_MARKER.length = 10 := by decide
        omega
      have hpre := append_head_of_le hp h10
      have hall : ∀ j : Nat, j < 53 → 43 < j →
          ¬ ((str "[FALLBACK OUTPUT] Unable to generate content due to: ").drop j <+:
            FALLBACK_MARKER) := by
        decide
      exact hall i hi (by omega) hpre
  · have hdrop : (fallbackOutput e).drop i = e.drop (i - 53) := by
      show ((str "[FALLBACK OUTPUT] Unable to generate content due to: ") ++ e).drop i = _
      rw [List.drop_append_eq_append_drop]
      rw [List.drop_eq_nil_of_le (by omega), hplen]
      simp
    rw [hdrop] at hp
    exact h (infix_iff_exists_drop.mpr ⟨i - 53, hp⟩)

/-- Key lookup of the `clarity` entry in the dimensions dict. -/
theorem scorerDims_lookup_clarity (p t : Str) :
    (scorerDims p t).lookup (str "clarity") =
      some (some (clarityScore t (scorerWordCount t))) := by
  simp [scorerDims, List.lookup,
    show (str "clarity" == str "clarity") = true from by decide]

/-- Claim C10: the fallback string built on retry exhaustion never
contains the marker `"[FALLBACK]"` unless the error text itself does, so
the scorer never assigns the fallback clarity penalty 0.3 to the
pipeline's own fallback output: its clarity is 0.8, or 0.6 when the
normalized word count is below 15. -/
theorem fallback_output_not_marked (e : Str) (h : ¬ FALLBACK_MARKER <:+: e) :
    ¬ FALLBACK_MARKER <:+: fallbackOutput e ∧
    (∀ wc : Nat, clarityScore (pyStrip (fallbackOutput e)) wc =
      if wc < 15 then 0.6 else 0.8) ∧
    (∀ wc : Nat, clarityScore (pyStrip (fallbackOutput e)) wc ≠ 0.3) ∧
    (∀ p : Str, (quality_and_reach_scorer p (fallbackOutput e)).dimensions.lookup
        (str "clarity") =
      some (some (if scorerWordCount (pyStrip (fallbackOutput e)) < 15 then
        (0.6 : ℚ) else 0.8))) := by
  have hno := fallback_marker_free e h
  have hnos : ¬ FALLBACK_MARKER <:+: pyStrip (fallbackOutput e) := fun hin =>
    hno (hin.trans (pyStrip_within _))
  have hclar : ∀ wc : Nat, clarityScore (pyStrip (fallbackOutput e)) wc =
      if wc < 15 then 0.6 else 0.8 := by
    intro wc
    unfold clarityScore
    rw [if_neg hnos]
  refine ⟨hno, hclar, fun wc => ?_, fun p => ?_⟩
  · rw [hclar wc]
    split_ifs <;> norm_num
  · have hmem : '[' ∈ fallbackOutput e := by
      unfold fallbackOutput
      exact List.mem_append.mpr (Or.inl (by decide))
    have hne : pyStrip (fallbackOutput e) ≠ [] :=
      pyStrip_ne_nil_of_mem hmem (by decide)
    rw [scorer_eq p _ hne]
    have : (scorerBody (toLowerStr p) (pyStrip (fallbackOutput e))).dimensions =
        scorerDims (toLowerStr p) (pyStrip (fallbackOutput e)) := rfl
    rw [this, scorerDims_lookup_clarity, hclar]

/-- Witness for C10 at the empty error string. -/
theorem fallback_output_not_marked_witness :
    ¬ FALLBACK_MARKER <:+: ([] : Str) ∧
    ¬ FALLBACK_MARKER <:+: fallbackOutput [] :=
  ⟨by decide, (fallback_output_not_marked [] (by decide)).1⟩

end ContentRepurposer
